import Mathlib

/-!
Verification of the course search engine (`src/courses.py`) against its
natural-language specification.  The Python module is shallowly embedded:
Python values that can occur in a criteria dictionary become the inductive
type `Val`, the criteria dictionary becomes an association list in insertion
order, SQL text is composed exactly as the Python string concatenation does,
and the parameter list is a `List Val`.  Query execution is not modelled
except where a claim needs it (the `terms` subquery and the SQLite `IN`
operator), in which case the semantics is modelled from the SQL text the
code emits.
-/

set_option maxRecDepth 100000

/-- A Python value that can appear in a criteria dictionary: the validator
in `assert_valid_input` distinguishes `int`, `str`, `list` and `tuple`
(`isinstance(..., (list, tuple))`), and `find_courses` distinguishes `list`
from everything else (`type(v) == list`), so all four shapes are modelled. -/
inductive Val where
  | vInt (n : Int)
  | vStr (s : String)
  | vList (xs : List Val)
  | vTuple (xs : List Val)

/-- The criteria dictionary `args_from_ui`: association list in insertion
order (Python dicts preserve insertion order and have unique keys; theorems
that depend on key uniqueness carry a `Nodup` hypothesis). -/
abbrev Criteria := List (String × Val)

/-- `k in args_from_ui` -/
def hasKey (cr : Criteria) (k : String) : Bool :=
  cr.any (fun kv => kv.1 == k)

/-- `args_from_ui.get(k, d)` (first binding of `k`, or the default). -/
def pyGet (cr : Criteria) (k : String) (d : Val) : Val :=
  match cr.find? (fun kv => kv.1 == k) with
  | some kv => kv.2
  | none => d

/-- `isinstance(v, str)` -/
def isStr : Val → Bool
  | .vStr _ => true
  | _ => false

/-- `isinstance(v, int)` -/
def isInt : Val → Bool
  | .vInt _ => true
  | _ => false

/-- `isinstance(v, (list, tuple))`, returning the elements when it holds. -/
def seqElems : Val → Option (List Val)
  | .vList xs => some xs
  | .vTuple xs => some xs
  | _ => none

/-- Python truthiness of a value (`assert terms`). -/
def truthy : Val → Bool
  | .vInt n => n != 0
  | .vStr s => s != ""
  | .vList xs => !xs.isEmpty
  | .vTuple xs => !xs.isEmpty

/-- `isinstance(v, (list, tuple)) and all(isinstance(s, str) for s in v)` -/
def isSeqOfStr (v : Val) : Bool :=
  match seqElems v with
  | some xs => xs.all isStr
  | none => false

/-- `len(v)` for the values it is applied to in `find_courses`
(strings, lists and tuples; `len` of an `int` raises `TypeError`). -/
def pyLen : Val → Option Nat
  | .vInt _ => none
  | .vStr s => some s.length
  | .vList xs => some xs.length
  | .vTuple xs => some xs.length

/-- `acceptable_keys` from `assert_valid_input`. -/
def acceptable_keys : List String :=
  ["time_start", "time_end", "enrollment", "dept",
   "terms", "day", "building_code", "walking_time"]

/-- The two `terms` asserts after the type assert: `assert terms` (Python
truthiness) together with the sequence-of-strings shape. -/
def termsCheck (v : Val) : Bool :=
  truthy v && isSeqOfStr v

/-- `isinstance(v, int) and v >= 0` (the `time_start` asserts). -/
def timeStartCheck (v : Val) : Bool :=
  match v with
  | .vInt n => decide (0 ≤ n)
  | _ => false

/-- `isinstance(v, int) and v < 2400` (the `time_end` asserts). -/
def timeEndCheck (v : Val) : Bool :=
  match v with
  | .vInt n => decide (n < 2400)
  | _ => false

/-- The four `enrollment` asserts: a 2-element sequence of integers
`[lo, hi]` with `lo <= hi`. -/
def enrollCheck (v : Val) : Bool :=
  match seqElems v with
  | some xs =>
    xs.length == 2 && xs.all isInt &&
    (match xs with
     | [.vInt a, .vInt b] => decide (a ≤ b)
     | _ => false)
  | none => false

/-- `assert_valid_input(args_from_ui)`: `true` iff every `assert` passes
(the Python function raises `AssertionError` otherwise and returns nothing
on success; it performs no writes, so it is modelled as a pure predicate). -/
def assert_valid_input (cr : Criteria) : Bool :=
  cr.all (fun kv => acceptable_keys.contains kv.1) &&
  ((hasKey cr "building_code" && hasKey cr "walking_time") ||
   (!hasKey cr "building_code" && !hasKey cr "walking_time")) &&
  isStr (pyGet cr "building_code" (.vStr "")) &&
  isInt (pyGet cr "walking_time" (.vInt 0)) &&
  isSeqOfStr (pyGet cr "day" (.vList [])) &&
  isStr (pyGet cr "dept" (.vStr "")) &&
  termsCheck (pyGet cr "terms" (.vList [.vStr ""])) &&
  timeStartCheck (pyGet cr "time_start" (.vInt 0)) &&
  timeEndCheck (pyGet cr "time_end" (.vInt 0)) &&
  enrollCheck (pyGet cr "enrollment" (.vList [.vInt 0, .vInt 0]))

/-! ### SQL text literals of `find_courses`, reproduced verbatim -/

/-- The `select` literal (always-selected Course columns). -/
def select0 : String :=
  "\n             SELECT DISTINCT\n             courses.dept,\n             courses.course_num,\n             courses.title\n             "

/-- `add_select1` (Section/MeetingPattern output columns). -/
def add_select1 : String :=
  "\n         ,\n         sections.section_num,\n         meeting_patterns.day,\n         meeting_patterns.time_start,\n         meeting_patterns.time_end,\n         sections.enrollment\n         "

/-- `add_select2` (the derived geodistance column; holds the two
coordinate placeholders that are bound before everything else). -/
def add_select2 : String :=
  "\n         ,\n         sections.building_code,\n         time_between(gps.lon, gps.lat, ?, ?) AS walking_time\n\n         "

/-- `frm` -/
def frm0 : String :=
  "\n        FROM courses\n        "

/-- `add_joins` (a single block: Section, MeetingPattern AND gps joins). -/
def add_joins : String :=
  "\n        JOIN sections on courses.course_id = sections.course_id\n        JOIN meeting_patterns ON sections.meeting_pattern_id = meeting_patterns.meeting_pattern_id\n        JOIN gps on gps.building_code = sections.building_code\n        "

/-- `where` -/
def where0 : String :=
  "\n        WHERE 1 = 1\n        "

/-- `where_terms` up to the format hole. -/
def where_terms_pre : String :=
  "\n        AND courses.course_id IN\n        (SELECT course_id FROM catalog_index\n        WHERE word IN ("

/-- `where_terms` after the format hole. -/
def where_terms_post : String :=
  ")\n        GROUP BY course_id\n        HAVING count(*) = ?)\n        "

/-- Tail of a comma-joined placeholder list. -/
def joinQsAux : Nat → String
  | 0 => ""
  | n + 1 => ", ?" ++ joinQsAux n

/-- `', '.join(['?'] * n)` -/
def joinQs : Nat → String
  | 0 => ""
  | n + 1 => "?" ++ joinQsAux n

/-- `where_terms.format(', '.join(['?'] * n))` -/
def where_terms_fmt (n : Nat) : String :=
  where_terms_pre ++ joinQs n ++ where_terms_post

/-- `' AND meeting_patterns.day IN ({})'.format(', '.join(['?'] * n))` -/
def day_fmt (n : Nat) : String :=
  " AND meeting_patterns.day IN (" ++ joinQs n ++ ")"

/-- `where_dict`, with the precomputed lengths of the `day` and `terms`
lists (the dictionary literal is evaluated once, before the key loop). -/
def where_dict (dayN termsN : Nat) (k : String) : Option String :=
  if k == "time_start" then some " AND meeting_patterns.time_start >= ?"
  else if k == "time_end" then some " AND meeting_patterns.time_end <= ?"
  else if k == "day" then some (day_fmt dayN)
  else if k == "dept" then some " AND courses.dept = ?"
  else if k == "enrollment" then some " AND sections.enrollment BETWEEN ? AND ?"
  else if k == "terms" then some (where_terms_fmt termsN)
  else if k == "walking_time" then some " AND walking_time <= ?"
  else none

/-- `input_vars` -/
def input_vars : List String :=
  ["enrollment", "time_start", "time_end", "day", "section_num",
   "walking_time", "building_code"]

/-- `len(set(args_from_ui.keys()) & input_vars) > 0` -/
def joinTrigger (cr : Criteria) : Bool :=
  cr.any (fun kv => input_vars.contains kv.1)

/-- The parameters one loop iteration appends for key `k` bound to `v`:
`if type(v) == list: args += v; if k == 'terms': args.append(len(v))`
`else: args.append(v)` — note a tuple falls into the `else` branch. -/
def fragParams (k : String) (v : Val) : List Val :=
  match v with
  | .vList xs => xs ++ (if k == "terms" then [Val.vInt (Int.ofNat xs.length)] else [])
  | _ => [v]

/-- Errors `find_courses` can raise: a failed `assert` in the validator,
`IndexError` from `fetchall()[0]` on an empty lookup, `KeyError` from
`where_dict[k]`, and `TypeError` from `len` of a non-sized value (the two
latter are unreachable once validation has passed). -/
inductive FCErr where
  | validationError
  | indexError
  | keyError
  | typeError
deriving DecidableEq

/-- Python's exception hierarchy: `IndexError` and `KeyError` are
subclasses of the builtin `LookupError`; `AssertionError` and `TypeError`
are not. -/
def FCErr.isLookupSubclass : FCErr → Bool
  | .indexError => true
  | .keyError => true
  | _ => false

/-- Outcome of `find_courses` up to handing the composed query to the
store: either the `([], [])` short-circuit return, or the fully composed
main query together with its bound parameter list, or a raised error. -/
inductive FCResult where
  | ret
  | runs (query : String) (params : List Val)
  | err (e : FCErr)

def FCResult.isRet : FCResult → Bool
  | .ret => true
  | _ => false

def FCResult.isRuns : FCResult → Bool
  | .runs _ _ => true
  | _ => false

def FCResult.errKind : FCResult → Option FCErr
  | .err e => some e
  | _ => none

/-- The composed main query text (`""` unless a query is run). -/
def FCResult.queryText : FCResult → String
  | .runs q _ => q
  | _ => ""

/-- The bound parameter list (`[]` unless a query is run). -/
def FCResult.paramList : FCResult → List Val
  | .runs _ p => p
  | _ => []

/-- The preliminary lookup query text. -/
def lookupSQL : String := "select lon, lat from gps where building_code = ?"

/-- SQLite equality of a bound parameter against a TEXT column value
(the lookup binds the validated `building_code`, always a string). -/
def valEqStr : Val → String → Bool
  | .vStr s, t => s == t
  | _, _ => false

/-- The `gps` table: rows `(building_code, lon, lat)`.  Coordinates are
left abstract as `Val` — no claim needs their numeric content. -/
abbrev GpsTable := List (String × Val × Val)

/-- `c.execute("select lon, lat from gps where building_code = ?", [bc]).fetchall()` -/
def gpsFetch (gps : GpsTable) (bc : Val) : List (Val × Val) :=
  (gps.filter (fun r => valEqStr bc r.1)).map (fun r => (r.2.1, r.2.2))

/-- The `for k, v in args_from_ui.items()` loop, threading the pair
(`where` text, `args`): skip `building_code`; otherwise append
`where_dict[k]` to the WHERE text and the matching parameter values, or
raise `KeyError` for a key `where_dict` does not cover. -/
def whereFold : Criteria → Nat → Nat → String → List Val → Except FCErr (String × List Val)
  | [], _, _, w, args => .ok (w, args)
  | kv :: rest, dayN, termsN, w, args =>
    if kv.1 == "building_code" then whereFold rest dayN termsN w args
    else
      match where_dict dayN termsN kv.1 with
      | none => .error .keyError
      | some frag => whereFold rest dayN termsN (w ++ frag) (args ++ fragParams kv.1 kv.2)

/-- `query = select + frm + where; c.execute(query, args)` — the final
assembly shared by all branches of `find_courses`. -/
def finishQuery (cr : Criteria) (dayN termsN : Nat) (sel fr : String)
    (args0 : List Val) (tr0 : List String) : FCResult × List String :=
  match whereFold cr dayN termsN where0 args0 with
  | .error e => (.err e, tr0)
  | .ok (w, args) => (.runs (sel ++ fr ++ w) args, tr0 ++ [sel ++ fr ++ w])

/-- `find_courses(args_from_ui)`, embedded over an explicit `gps` table.
The second component records the queries executed on the store, in order
(the preliminary coordinate lookup and/or the composed main query). -/
def find_courses (cr : Criteria) (gps : GpsTable) : FCResult × List String :=
  if cr.isEmpty then (.ret, [])
  else if assert_valid_input cr = false then (.err .validationError, [])
  else
    match pyLen (pyGet cr "day" (.vList [])), pyLen (pyGet cr "terms" (.vList [])) with
    | some dayN, some termsN =>
      if joinTrigger cr then
        if hasKey cr "building_code" then
          match (gpsFetch gps (pyGet cr "building_code" (.vStr ""))).head? with
          | none => (.err .indexError, [lookupSQL])
          | some ll =>
            finishQuery cr dayN termsN (select0 ++ add_select1 ++ add_select2)
              (frm0 ++ add_joins) [ll.1, ll.2] [lookupSQL]
        else
          finishQuery cr dayN termsN (select0 ++ add_select1) (frm0 ++ add_joins) [] []
      else
        finishQuery cr dayN termsN select0 frm0 [] []
    | _, _ => (.err .typeError, [])

/-! ### Result shaper -/

/-- Everything after the FIRST `'.'` (Python `s[s.find(".") + 1:]`,
`find` returning the lowest index). -/
def afterFirstDot : List Char → List Char
  | [] => []
  | c :: rest => if c = '.' then rest else afterFirstDot rest

/-- The per-column transformation of `get_header`:
`if "." in s: s = s[s.find(".") + 1:]`. -/
def stripQualifier (s : String) : String :=
  if '.' ∈ s.data then String.mk (afterFirstDot s.data) else s

/-- `get_header(cursor)` over the ordered column names of
`cursor.description` (the code reads `i[0]` of each descriptor). -/
def get_header (names : List String) : List String :=
  names.map stripQualifier

/-- Number of `?` placeholders in a piece of query text. -/
def countQ (s : String) : Nat :=
  s.data.countP (fun c => c == '?')

/-! ### Derived views of the composition, used to state the claims -/

/-- The WHERE text the key loop appends (everything after the base
`WHERE 1 = 1`): one fragment per key in dictionary order, skipping
`building_code`. -/
def wtext (dayN termsN : Nat) : Criteria → String
  | [] => ""
  | kv :: rest =>
    (if kv.1 == "building_code" then "" else (where_dict dayN termsN kv.1).getD "") ++
    wtext dayN termsN rest

/-- The parameters the key loop appends: one block per key in dictionary
order, skipping `building_code`. -/
def wargs : Criteria → List Val
  | [] => []
  | kv :: rest =>
    (if kv.1 == "building_code" then [] else fragParams kv.1 kv.2) ++ wargs rest

/-- `len(args_from_ui.get('day', []))` (defined when the value is sized). -/
def dayLen (cr : Criteria) : Nat :=
  (pyLen (pyGet cr "day" (.vList []))).getD 0

/-- `len(args_from_ui.get('terms', []))` (defined when the value is sized). -/
def termsLen (cr : Criteria) : Nat :=
  (pyLen (pyGet cr "terms" (.vList []))).getD 0

/-- Every value in the mapping is a Python `list` where it is a sequence —
the one shape the parameter loop's `type(v) == list` test special-cases
(`assert_valid_input` also accepts tuples). -/
def noTupleVals (cr : Criteria) : Bool :=
  cr.all (fun kv =>
    match kv.2 with
    | .vTuple _ => false
    | _ => true)

/-- The section/meeting-pattern-scoped key set named by the specification. -/
def sectionKeys : List String :=
  ["enrollment", "time_start", "time_end", "day", "walking_time"]

/-! ### The §4.1 constraint list as claim C5 words it (refinement side) -/

/-- "`k` present but not …": the per-key constraint applies only when the
key is actually present in the mapping. -/
def ifPresentOk (cr : Criteria) (k : String) (p : Val → Bool) : Bool :=
  match cr.find? (fun kv => kv.1 == k) with
  | some kv => p kv.2
  | none => true

/-- "a non-empty sequence of strings" (claim C5's `terms` constraint). -/
def nonEmptySeqOfStr (v : Val) : Bool :=
  match seqElems v with
  | some xs => !xs.isEmpty && xs.all isStr
  | none => false

/-- "a 2-element integer sequence `[lo, hi]` with `lo <= hi`"
(claim C5's `enrollment` constraint). -/
def isIntPairLe (v : Val) : Bool :=
  match seqElems v with
  | some [.vInt a, .vInt b] => decide (a ≤ b)
  | _ => false

/-- The constraint list exactly as claim C5 states it: recognized keys,
`building_code`/`walking_time` both present or both absent, and per-key
shape constraints for present keys.  (Note: the list has NO constraint on
the type of `walking_time`.) -/
def claimedConstraints (cr : Criteria) : Bool :=
  cr.all (fun kv => acceptable_keys.contains kv.1) &&
  (hasKey cr "building_code" == hasKey cr "walking_time") &&
  ifPresentOk cr "building_code" isStr &&
  ifPresentOk cr "dept" isStr &&
  ifPresentOk cr "day" isSeqOfStr &&
  ifPresentOk cr "terms" nonEmptySeqOfStr &&
  ifPresentOk cr "time_start" timeStartCheck &&
  ifPresentOk cr "time_end" timeEndCheck &&
  ifPresentOk cr "enrollment" isIntPairLe

/-- Claim C5's constraint list amended with the one extra check the code
performs: `walking_time`, if present, must be an integer. -/
def amendedConstraints (cr : Criteria) : Bool :=
  claimedConstraints cr && ifPresentOk cr "walking_time" isInt

/-! ### Semantics of the `terms` subquery (claim C3) -/

/-- Number of `catalog_index` rows for course `cid` whose word is IN the
bound term list — the per-group `count(*)` of the composed subquery
`SELECT course_id FROM catalog_index WHERE word IN (…) GROUP BY course_id`. -/
def matchCount (idx : List (String × Nat)) (terms : List String) (cid : Nat) : Nat :=
  (idx.filter (fun r => decide (r.1 ∈ terms) && r.2 == cid)).length

/-- Whether course `cid` satisfies the composed `terms` predicate:
a GROUP BY group exists for it (at least one matching row) and the group's
`count(*)` equals the bound count parameter `cnt`. -/
def termsPass (idx : List (String × Nat)) (terms : List String) (cnt cid : Nat) : Bool :=
  decide (0 < matchCount idx terms cid) && (matchCount idx terms cid == cnt)

/-! ### SQLite semantics of the day IN-list (claim C10) -/

/-- One candidate row's `meeting_patterns.day IN (…)` test against the
bound day parameters.  Modelled from the documented semantics of the
sqlite3 store the code uses: SQLite — unlike SQL-92 and most engines —
accepts an EMPTY parenthesized list on the right-hand side of `IN`, in
which case the operator is simply false. -/
def sqliteDayIn (day : String) (params : List Val) : Bool :=
  params.any (fun v => valEqStr v day)

/-- Executing the day filter of the composed query over the stored day
column: SQLite parses `IN ()` successfully, so execution never fails here;
it returns the rows whose day is among the bound parameters. -/
def sqliteRunDayQuery (params : List Val) (days : List String) :
    Except String (List String) :=
  Except.ok (days.filter (fun d => sqliteDayIn d params))

/-! ### Helper lemmas: placeholder counting -/

theorem countQ_append (a b : String) : countQ (a ++ b) = countQ a + countQ b := by
  simp [countQ, String.data_append, List.countP_append]

theorem countQ_joinQsAux (n : Nat) : countQ (joinQsAux n) = n := by
  induction n with
  | zero => rfl
  | succ n ih =>
    rw [joinQsAux, countQ_append, ih, show countQ ", ?" = 1 from rfl]
    omega

theorem countQ_joinQs (n : Nat) : countQ (joinQs n) = n := by
  cases n with
  | zero => rfl
  | succ n =>
    rw [joinQs, countQ_append, countQ_joinQsAux, show countQ "?" = 1 from rfl]
    omega

theorem countQ_day_fmt (n : Nat) : countQ (day_fmt n) = n := by
  rw [day_fmt, countQ_append, countQ_append, countQ_joinQs,
      show countQ " AND meeting_patterns.day IN (" = 0 from rfl,
      show countQ ")" = 0 from rfl]
  omega

theorem countQ_terms_fmt (n : Nat) : countQ (where_terms_fmt n) = n + 1 := by
  rw [where_terms_fmt, countQ_append, countQ_append, countQ_joinQs,
      show countQ where_terms_pre = 0 from rfl,
      show countQ where_terms_post = 1 from rfl]
  omega

/-! ### Helper lemmas: characters of the composed text -/

theorem joinQsAux_chars (n : Nat) :
    ∀ c ∈ (joinQsAux n).data, c = '?' ∨ c = ',' ∨ c = ' ' := by
  induction n with
  | zero => intro c hc; simp [joinQsAux] at hc
  | succ n ih =>
    intro c hc
    rw [joinQsAux, String.data_append] at hc
    rcases List.mem_append.mp hc with h | h
    · fin_cases h <;> simp
    · exact ih c h

theorem joinQs_chars (n : Nat) :
    ∀ c ∈ (joinQs n).data, c = '?' ∨ c = ',' ∨ c = ' ' := by
  cases n with
  | zero => intro c hc; simp [joinQs] at hc
  | succ n =>
    intro c hc
    rw [joinQs, String.data_append] at hc
    rcases List.mem_append.mp hc with h | h
    · fin_cases h <;> simp
    · exact joinQsAux_chars n c h

/-- `'J'` occurs in no WHERE fragment `where_dict` can produce. -/
theorem J_not_in_frag (dayN termsN : Nat) (k : String) (frag : String)
    (h : where_dict dayN termsN k = some frag) : 'J' ∉ frag.data := by
  unfold where_dict at h
  split_ifs at h <;> injection h with h <;> subst h <;> intro hc
  · revert hc; decide
  · revert hc; decide
  · rw [day_fmt, String.data_append, String.data_append] at hc
    rcases List.mem_append.mp hc with h | h
    · rcases List.mem_append.mp h with h | h
      · revert h; decide
      · rcases joinQs_chars _ _ h with h | h | h <;> simp_all
    · revert h; decide
  · revert hc; decide
  · revert hc; decide
  · rw [where_terms_fmt, String.data_append, String.data_append] at hc
    rcases List.mem_append.mp hc with h | h
    · rcases List.mem_append.mp h with h | h
      · revert h; decide
      · rcases joinQs_chars _ _ h with h | h | h <;> simp_all
    · revert h; decide
  · revert hc; decide

/-- `'x'` occurs in no WHERE fragment other than the `terms` one. -/
theorem x_not_in_frag (dayN termsN : Nat) (k : String) (frag : String)
    (h : where_dict dayN termsN k = some frag) (hk : k ≠ "terms") :
    'x' ∉ frag.data := by
  unfold where_dict at h
  split_ifs at h with h1 h2 h3 h4 h5 h6 h7 <;> try (injection h with h; subst h; intro hc)
  · revert hc; decide
  · revert hc; decide
  · rw [day_fmt, String.data_append, String.data_append] at hc
    rcases List.mem_append.mp hc with h | h
    · rcases List.mem_append.mp h with h | h
      · revert h; decide
      · rcases joinQs_chars _ _ h with h | h | h <;> simp_all
    · revert h; decide
  · revert hc; decide
  · revert hc; decide
  · exact absurd (eq_of_beq h6) hk
  · revert hc; decide

/-- `'k'` occurs in no WHERE fragment other than the `walking_time` one. -/
theorem k_not_in_frag (dayN termsN : Nat) (k : String) (frag : String)
    (h : where_dict dayN termsN k = some frag) (hk : k ≠ "walking_time") :
    'k' ∉ frag.data := by
  unfold where_dict at h
  split_ifs at h with h1 h2 h3 h4 h5 h6 h7 <;> try (injection h with h; subst h; intro hc)
  · revert hc; decide
  · revert hc; decide
  · rw [day_fmt, String.data_append, String.data_append] at hc
    rcases List.mem_append.mp hc with h | h
    · rcases List.mem_append.mp h with h | h
      · revert h; decide
      · rcases joinQs_chars _ _ h with h | h | h <;> simp_all
    · revert h; decide
  · revert hc; decide
  · revert hc; decide
  · rw [where_terms_fmt, String.data_append, String.data_append] at hc
    rcases List.mem_append.mp hc with h | h
    · rcases List.mem_append.mp h with h | h
      · revert h; decide
      · rcases joinQs_chars _ _ h with h | h | h <;> simp_all
    · revert h; decide
  · exact absurd (eq_of_beq h7) hk

/-! ### Helper lemmas: the key loop -/

/-- Inverting a successful key loop: the final WHERE text and parameter
list are the initial ones followed by the per-key fragments/blocks in
dictionary order. -/
theorem whereFold_ok_inv (cr : Criteria) (dayN termsN : Nat) (w0 : String)
    (a0 : List Val) (w : String) (args : List Val)
    (h : whereFold cr dayN termsN w0 a0 = .ok (w, args)) :
    w = w0 ++ wtext dayN termsN cr ∧ args = a0 ++ wargs cr := by
  induction cr generalizing w0 a0 with
  | nil =>
    rw [whereFold] at h
    injection h with h
    injection h with h1 h2
    subst h1; subst h2
    simp [wtext, wargs]
  | cons kv rest ih =>
    rw [whereFold] at h
    by_cases hbc : (kv.1 == "building_code") = true
    · rw [if_pos hbc] at h
      have := ih w0 a0 h
      rw [wtext, wargs, if_pos hbc, if_pos hbc]
      simpa using this
    · rw [if_neg hbc] at h
      cases hwd : where_dict dayN termsN kv.1 with
      | none => rw [hwd] at h; exact Except.noConfusion h
      | some frag =>
        rw [hwd] at h
        have := ih (w0 ++ frag) (a0 ++ fragParams kv.1 kv.2) h
        rw [wtext, wargs, if_neg hbc, if_neg hbc, hwd]
        simp only [Option.getD_some]
        exact ⟨by rw [this.1, String.append_assoc], by rw [this.2, List.append_assoc]⟩

/-- Inverting the final assembly: a run query splits into the select part,
the from part, and `WHERE 1 = 1` followed by the loop fragments; the
parameters are the seed followed by the loop blocks. -/
theorem finishQuery_runs_inv (cr : Criteria) (dayN termsN : Nat) (sel fr : String)
    (a0 : List Val) (tr0 : List String) (q : String) (p : List Val)
    (tr : List String)
    (h : finishQuery cr dayN termsN sel fr a0 tr0 = (.runs q p, tr)) :
    q = sel ++ fr ++ (where0 ++ wtext dayN termsN cr) ∧
    p = a0 ++ wargs cr ∧ tr = tr0 ++ [q] := by
  unfold finishQuery at h
  cases hf : whereFold cr dayN termsN where0 a0 with
  | error e => rw [hf] at h; simp only [Prod.mk.injEq] at h; exact absurd h.1 (by simp)
  | ok wa =>
    rw [hf] at h
    obtain ⟨w, args⟩ := wa
    simp only [Prod.mk.injEq, FCResult.runs.injEq] at h
    obtain ⟨⟨hq, hp⟩, htr⟩ := h
    obtain ⟨hw, ha⟩ := whereFold_ok_inv cr dayN termsN where0 a0 w args hf
    subst hq; subst hp
    exact ⟨by rw [hw], by rw [ha], by rw [← htr]⟩

/-- Inverting `find_courses` when it reaches the store with a composed
query: the criteria were non-empty and validated, and the query text,
parameter list and executed-query trace have one of the three shapes
(no joins; joins without geodistance; joins with geodistance seeded from
the successful coordinate lookup). -/
theorem find_courses_runs_inv (cr : Criteria) (gps : GpsTable) (q : String)
    (p : List Val) (tr : List String)
    (h : find_courses cr gps = (.runs q p, tr)) :
    cr ≠ [] ∧ assert_valid_input cr = true ∧
    ∃ dayN termsN,
      pyLen (pyGet cr "day" (.vList [])) = some dayN ∧
      pyLen (pyGet cr "terms" (.vList [])) = some termsN ∧
      ((joinTrigger cr = false ∧
        q = select0 ++ frm0 ++ (where0 ++ wtext dayN termsN cr) ∧
        p = wargs cr ∧ tr = [q]) ∨
       (joinTrigger cr = true ∧ hasKey cr "building_code" = false ∧
        q = (select0 ++ add_select1) ++ (frm0 ++ add_joins) ++
            (where0 ++ wtext dayN termsN cr) ∧
        p = wargs cr ∧ tr = [q]) ∨
       (joinTrigger cr = true ∧ hasKey cr "building_code" = true ∧
        ∃ ll, (gpsFetch gps (pyGet cr "building_code" (.vStr ""))).head? = some ll ∧
          q = (select0 ++ add_select1 ++ add_select2) ++ (frm0 ++ add_joins) ++
              (where0 ++ wtext dayN termsN cr) ∧
          p = [ll.1, ll.2] ++ wargs cr ∧ tr = [lookupSQL, q])) := by
  rw [find_courses] at h
  split at h
  · simp only [Prod.mk.injEq] at h
    exact absurd h.1 (by simp)
  · next hne =>
    split at h
    · simp only [Prod.mk.injEq] at h
      exact absurd h.1 (by simp)
    · next hv =>
      split at h
      · next dayN termsN hd ht =>
        refine ⟨by simpa using hne, by simpa using hv, dayN, termsN, hd, ht, ?_⟩
        split at h
        · next htrig =>
          split at h
          · next hbc =>
            split at h
            · simp only [Prod.mk.injEq] at h
              exact absurd h.1 (by simp)
            · next ll hll =>
              obtain ⟨hq, hp, htr⟩ := finishQuery_runs_inv _ _ _ _ _ _ _ _ _ _ h
              refine Or.inr (Or.inr ⟨htrig, hbc, ll, hll, ?_, ?_, ?_⟩)
              · rw [hq]
              · rw [hp]
              · rw [htr, hq]; rfl
          · next hbc =>
            obtain ⟨hq, hp, htr⟩ := finishQuery_runs_inv _ _ _ _ _ _ _ _ _ _ h
            refine Or.inr (Or.inl ⟨htrig, by simpa using hbc, ?_, ?_, ?_⟩)
            · rw [hq]
            · rw [hp]; rfl
            · rw [htr, hq]; rfl
        · next htrig =>
          obtain ⟨hq, hp, htr⟩ := finishQuery_runs_inv _ _ _ _ _ _ _ _ _ _ h
          refine Or.inl ⟨by simpa using htrig, ?_, ?_, ?_⟩
          · rw [hq]
          · rw [hp]; rfl
          · rw [htr, hq]; rfl
      · simp only [Prod.mk.injEq] at h
        exact absurd h.1 (by simp)

/-! ### Helper lemmas: validated criteria -/

/-- Splitting a passed validation into the individual asserts. -/
theorem valid_parts (cr : Criteria) (h : assert_valid_input cr = true) :
    (∀ kv ∈ cr, acceptable_keys.contains kv.1 = true) ∧
    hasKey cr "building_code" = hasKey cr "walking_time" ∧
    isStr (pyGet cr "building_code" (.vStr "")) = true ∧
    isInt (pyGet cr "walking_time" (.vInt 0)) = true ∧
    isSeqOfStr (pyGet cr "day" (.vList [])) = true ∧
    isStr (pyGet cr "dept" (.vStr "")) = true ∧
    termsCheck (pyGet cr "terms" (.vList [.vStr ""])) = true ∧
    timeStartCheck (pyGet cr "time_start" (.vInt 0)) = true ∧
    timeEndCheck (pyGet cr "time_end" (.vInt 0)) = true ∧
    enrollCheck (pyGet cr "enrollment" (.vList [.vInt 0, .vInt 0])) = true := by
  rw [assert_valid_input] at h
  simp only [Bool.and_eq_true] at h
  obtain ⟨⟨⟨⟨⟨⟨⟨⟨⟨h1, h2⟩, h3⟩, h4⟩, h5⟩, h6⟩, h7⟩, h8⟩, h9⟩, h10⟩ := h
  refine ⟨List.all_eq_true.mp h1, ?_, h3, h4, h5, h6, h7, h8, h9, h10⟩
  rcases Bool.or_eq_true_iff.mp h2 with h | h
  · simp only [Bool.and_eq_true] at h; rw [h.1, h.2]
  · simp only [Bool.and_eq_true, Bool.not_eq_true'] at h; rw [h.1, h.2]

/-- In a mapping with pairwise-distinct keys, looking an entry's key up
finds that entry. -/
theorem find?_eq_of_mem_nodup (cr : Criteria) (kv : String × Val)
    (hmem : kv ∈ cr) (hnd : (cr.map Prod.fst).Nodup) :
    cr.find? (fun x => x.1 == kv.1) = some kv := by
  induction cr with
  | nil => cases hmem
  | cons a rest ih =>
    rcases List.mem_cons.mp hmem with h | h
    · subst h
      simp [List.find?_cons]
    · rw [List.map_cons, List.nodup_cons] at hnd
      have hne : (a.1 == kv.1) = false := by
        refine beq_eq_false_iff_ne.mpr ?_
        intro hbeq
        exact hnd.1 (hbeq ▸ List.mem_map_of_mem Prod.fst h)
      simp only [List.find?_cons, hne]
      exact ih h hnd.2

/-- `dict.get` of an entry's key returns that entry's value. -/
theorem pyGet_of_mem_nodup (cr : Criteria) (kv : String × Val) (d : Val)
    (hmem : kv ∈ cr) (hnd : (cr.map Prod.fst).Nodup) :
    pyGet cr kv.1 d = kv.2 := by
  rw [pyGet, find?_eq_of_mem_nodup cr kv hmem hnd]

/-- A `building_code` key alone already switches the join block on. -/
theorem joinTrigger_of_building (cr : Criteria)
    (h : hasKey cr "building_code" = true) : joinTrigger cr = true := by
  rw [hasKey] at h
  obtain ⟨kv, hmem, hbeq⟩ := List.any_eq_true.mp h
  refine List.any_eq_true.mpr ⟨kv, hmem, ?_⟩
  rw [eq_of_beq hbeq]
  decide

/-- Under validation, the code's trigger `len(keys & input_vars) > 0`
agrees with the specification's five section-scoped keys: `section_num`
is never a validated key, and `building_code` occurs only together with
`walking_time`. -/
theorem joinTrigger_iff_sectionKeys (cr : Criteria)
    (hv : assert_valid_input cr = true) :
    joinTrigger cr = true ↔ cr.any (fun kv => sectionKeys.contains kv.1) = true := by
  constructor
  · intro h
    rw [joinTrigger] at h
    obtain ⟨kv, hmem, hbeq⟩ := List.any_eq_true.mp h
    have hacc := (valid_parts cr hv).1 kv hmem
    have hk : kv.1 ∈ input_vars := List.elem_iff.mp hbeq
    simp only [input_vars, List.mem_cons, List.mem_singleton,
      List.not_mem_nil, or_false] at hk
    rcases hk with heq | heq | heq | heq | heq | heq | heq
    · exact List.any_eq_true.mpr ⟨kv, hmem, by rw [heq]; decide⟩
    · exact List.any_eq_true.mpr ⟨kv, hmem, by rw [heq]; decide⟩
    · exact List.any_eq_true.mpr ⟨kv, hmem, by rw [heq]; decide⟩
    · exact List.any_eq_true.mpr ⟨kv, hmem, by rw [heq]; decide⟩
    · -- `section_num` is not an acceptable key, so this case cannot arise
      rw [heq] at hacc
      exact absurd hacc (by decide)
    · exact List.any_eq_true.mpr ⟨kv, hmem, by rw [heq]; decide⟩
    · -- `building_code`: validation forces `walking_time` to be present too
      have hbc : hasKey cr "building_code" = true :=
        List.any_eq_true.mpr ⟨kv, hmem, by rw [heq]; decide⟩
      have hwt : hasKey cr "walking_time" = true := by
        rw [← (valid_parts cr hv).2.1]; exact hbc
      obtain ⟨kw, hwmem, hwbeq⟩ := List.any_eq_true.mp hwt
      exact List.any_eq_true.mpr ⟨kw, hwmem, by rw [eq_of_beq hwbeq]; decide⟩
  · intro h
    obtain ⟨kv, hmem, hkb⟩ := List.any_eq_true.mp h
    rw [joinTrigger]
    refine List.any_eq_true.mpr ⟨kv, hmem, List.elem_iff.mpr ?_⟩
    have hks : kv.1 ∈ sectionKeys := List.elem_iff.mp hkb
    simp only [sectionKeys, List.mem_cons, List.mem_singleton,
      List.not_mem_nil, or_false] at hks
    rcases hks with heq | heq | heq | heq | heq <;> rw [heq] <;> decide

/-! ### Helper lemmas: characters and counts of the loop's WHERE text -/

theorem J_not_in_wtext (dayN termsN : Nat) (cr : Criteria) :
    'J' ∉ (wtext dayN termsN cr).data := by
  induction cr with
  | nil => rw [wtext]; decide
  | cons kv rest ih =>
    rw [wtext, String.data_append]
    intro hc
    rcases List.mem_append.mp hc with h | h
    · by_cases hbc : (kv.1 == "building_code") = true
      · rw [if_pos hbc] at h; revert h; decide
      · rw [if_neg hbc] at h
        cases hwd : where_dict dayN termsN kv.1 with
        | none => rw [hwd] at h; revert h; decide
        | some frag =>
          rw [hwd] at h
          exact J_not_in_frag dayN termsN kv.1 frag hwd (by simpa using h)
    · exact ih h

theorem x_not_in_wtext (dayN termsN : Nat) (cr : Criteria)
    (hterms : ∀ kv ∈ cr, kv.1 ≠ "terms") :
    'x' ∉ (wtext dayN termsN cr).data := by
  induction cr with
  | nil => rw [wtext]; decide
  | cons kv rest ih =>
    rw [wtext, String.data_append]
    intro hc
    rcases List.mem_append.mp hc with h | h
    · by_cases hbc : (kv.1 == "building_code") = true
      · rw [if_pos hbc] at h; revert h; decide
      · rw [if_neg hbc] at h
        cases hwd : where_dict dayN termsN kv.1 with
        | none => rw [hwd] at h; revert h; decide
        | some frag =>
          rw [hwd] at h
          exact x_not_in_frag dayN termsN kv.1 frag hwd
            (hterms kv (List.mem_cons_self kv rest)) (by simpa using h)
    · exact ih (fun x hx => hterms x (List.mem_cons_of_mem kv hx)) h

theorem k_not_in_wtext (dayN termsN : Nat) (cr : Criteria)
    (hwalk : ∀ kv ∈ cr, kv.1 ≠ "walking_time") :
    'k' ∉ (wtext dayN termsN cr).data := by
  induction cr with
  | nil => rw [wtext]; decide
  | cons kv rest ih =>
    rw [wtext, String.data_append]
    intro hc
    rcases List.mem_append.mp hc with h | h
    · by_cases hbc : (kv.1 == "building_code") = true
      · rw [if_pos hbc] at h; revert h; decide
      · rw [if_neg hbc] at h
        cases hwd : where_dict dayN termsN kv.1 with
        | none => rw [hwd] at h; revert h; decide
        | some frag =>
          rw [hwd] at h
          exact k_not_in_frag dayN termsN kv.1 frag hwd
            (hwalk kv (List.mem_cons_self kv rest)) (by simpa using h)
    · exact ih (fun x hx => hwalk x (List.mem_cons_of_mem kv hx)) h

/-- When every processed key's fragment carries exactly as many
placeholders as the loop appends parameters for it, the whole loop's
WHERE text and parameter block are aligned. -/
theorem wtext_count_eq_wargs_length (dayN termsN : Nat) (cr : Criteria)
    (H : ∀ kv ∈ cr, kv.1 ≠ "building_code" →
      ∃ frag, where_dict dayN termsN kv.1 = some frag ∧
        countQ frag = (fragParams kv.1 kv.2).length) :
    countQ (wtext dayN termsN cr) = (wargs cr).length := by
  induction cr with
  | nil => rw [wtext, wargs]; rfl
  | cons kv rest ih =>
    rw [wtext, wargs, countQ_append, List.length_append]
    have ihr := ih (fun x hx => H x (List.mem_cons_of_mem kv hx))
    by_cases hbc : (kv.1 == "building_code") = true
    · rw [if_pos hbc, if_pos hbc, ihr]
      rfl
    · obtain ⟨frag, hwd, hcount⟩ :=
        H kv (List.mem_cons_self kv rest) (by simpa using hbc)
      rw [if_neg hbc, if_neg hbc, hwd, Option.getD_some, hcount, ihr]

/-- For a validated mapping with distinct keys and list-shaped sequence
values, every looped key's WHERE fragment carries exactly as many `?`
placeholders as the loop appends parameter values for it. -/
theorem frag_count_of_valid (cr : Criteria)
    (hv : assert_valid_input cr = true)
    (hnd : (cr.map Prod.fst).Nodup)
    (hnt : noTupleVals cr = true)
    (kv : String × Val) (hmem : kv ∈ cr) (hne : kv.1 ≠ "building_code") :
    ∃ frag, where_dict (dayLen cr) (termsLen cr) kv.1 = some frag ∧
      countQ frag = (fragParams kv.1 kv.2).length := by
  obtain ⟨hacc, hbw, hbc, hwt, hday, hdept, hterm, hts, hte, henr⟩ := valid_parts cr hv
  have hshape := List.all_eq_true.mp hnt kv hmem
  have hget : ∀ d, pyGet cr kv.1 d = kv.2 :=
    fun d => pyGet_of_mem_nodup cr kv d hmem hnd
  have hk : kv.1 ∈ acceptable_keys := List.elem_iff.mp (hacc kv hmem)
  simp only [acceptable_keys, List.mem_cons, List.mem_singleton,
    List.not_mem_nil, or_false] at hk
  rcases hk with heq | heq | heq | heq | heq | heq | heq | heq
  · -- time_start
    rw [← heq, hget] at hts
    rw [heq]
    cases hval : kv.2 <;> rw [hval] at hts <;>
      first
      | exact ⟨_, rfl, rfl⟩
      | simp [timeStartCheck] at hts
  · -- time_end
    rw [← heq, hget] at hte
    rw [heq]
    cases hval : kv.2 <;> rw [hval] at hte <;>
      first
      | exact ⟨_, rfl, rfl⟩
      | simp [timeEndCheck] at hte
  · -- enrollment
    rw [← heq, hget] at henr
    rw [heq]
    cases hval : kv.2 <;> rw [hval] at henr
    · simp [enrollCheck, seqElems] at henr
    · simp [enrollCheck, seqElems] at henr
    · next xs =>
      refine ⟨_, rfl, ?_⟩
      rw [enrollCheck] at henr
      simp only [seqElems, Bool.and_eq_true] at henr
      have hlen : xs.length = 2 := by simpa using henr.1.1
      simp only [fragParams, show ("enrollment" == "terms") = false from rfl,
        Bool.false_eq_true, if_false, List.append_nil, hlen]
      rfl
    · rw [hval] at hshape
      simp at hshape
  · -- dept
    rw [← heq, hget] at hdept
    rw [heq]
    cases hval : kv.2 <;> rw [hval] at hdept <;>
      first
      | exact ⟨_, rfl, rfl⟩
      | simp [isStr] at hdept
  · -- terms
    rw [← heq, hget] at hterm
    rw [termsCheck, Bool.and_eq_true] at hterm
    rw [heq]
    cases hval : kv.2 <;> rw [hval] at hterm
    · simp [isSeqOfStr, seqElems] at hterm
    · simp [isSeqOfStr, seqElems] at hterm
    · next xs =>
      have hlen : termsLen cr = xs.length := by
        rw [termsLen, ← heq, hget, hval]
        rfl
      refine ⟨_, rfl, ?_⟩
      rw [hlen, countQ_terms_fmt]
      simp [fragParams]
    · rw [hval] at hshape
      simp at hshape
  · -- day
    rw [← heq, hget] at hday
    rw [heq]
    cases hval : kv.2 <;> rw [hval] at hday
    · simp [isSeqOfStr, seqElems] at hday
    · simp [isSeqOfStr, seqElems] at hday
    · next xs =>
      have hlen : dayLen cr = xs.length := by
        rw [dayLen, ← heq, hget, hval]
        rfl
      refine ⟨_, rfl, ?_⟩
      rw [hlen, countQ_day_fmt]
      simp [fragParams]
    · rw [hval] at hshape
      simp at hshape
  · -- building_code: excluded
    exact absurd heq hne
  · -- walking_time
    rw [← heq, hget] at hwt
    rw [heq]
    cases hval : kv.2 <;> rw [hval] at hwt <;>
      first
      | exact ⟨_, rfl, rfl⟩
      | simp [isInt] at hwt

/-! ### Claim C4 -/

/-- C4: for the empty criteria mapping, `find_courses` short-circuits:
it returns the `([], [])` pair (modelled by `FCResult.ret`) and the trace
of executed store queries is empty — neither the coordinate lookup nor a
composed main query runs. -/
theorem find_courses_empty_returns_nothing (gps : GpsTable) :
    find_courses [] gps = (FCResult.ret, []) := rfl

/-! ### Claim C6 -/

/-- C6 counterexample: `get_header` strips up to the FIRST qualifier
separator, not the last — on the column name `a.b.c` it yields `b.c`,
while the claim requires `c`. -/
theorem get_header_strips_first_not_last_cex :
    get_header ["a.b.c"] = ["b.c"] ∧ get_header ["a.b.c"] ≠ ["c"] := by
  decide

theorem afterFirstDot_append (pre post : List Char) (h : '.' ∉ pre) :
    afterFirstDot (pre ++ '.' :: post) = post := by
  induction pre with
  | nil => simp [afterFirstDot]
  | cons c rest ih =>
    have hc : c ≠ '.' := fun hcc => h (hcc ▸ List.mem_cons_self c rest)
    rw [List.cons_append, afterFirstDot, if_neg hc]
    exact ih (fun hm => h (List.mem_cons_of_mem c hm))

/-- C6 (amended): `get_header` emits one name per column descriptor in
the same order, and for a name containing a qualifier separator it strips
everything up to and including the FIRST separator (Python
`s[s.find(".") + 1:]`), keeping the rest; a separator-free name passes
through unchanged. -/
theorem get_header_amended (names1 names2 : List String) (pre post : List Char)
    (s : String) (hpre : '.' ∉ pre) (hs : '.' ∉ s.data) :
    (get_header names1).length = names1.length ∧
    get_header (names1 ++ names2) = get_header names1 ++ get_header names2 ∧
    stripQualifier (String.mk (pre ++ '.' :: post)) = String.mk post ∧
    stripQualifier s = s := by
  refine ⟨List.length_map names1 stripQualifier, List.map_append stripQualifier names1 names2, ?_, ?_⟩
  · rw [stripQualifier]
    rw [if_pos ?hmem]
    · rw [afterFirstDot_append pre post hpre]
    case hmem =>
      show '.' ∈ pre ++ '.' :: post
      exact List.mem_append.mpr (Or.inr (List.mem_cons_self _ _))
  · rw [stripQualifier, if_neg hs]

/-- C6 witness: the amended theorem evaluated on concrete column names. -/
theorem get_header_amended_witness :
    (get_header ["courses.dept", "a.b.c"]).length =
      (["courses.dept", "a.b.c"] : List String).length ∧
    get_header (["courses.dept", "a.b.c"] ++ ["title"]) =
      get_header ["courses.dept", "a.b.c"] ++ get_header ["title"] ∧
    stripQualifier (String.mk (['a'] ++ '.' :: "b.c".data)) = String.mk "b.c".data ∧
    stripQualifier "title" = "title" :=
  get_header_amended ["courses.dept", "a.b.c"] ["title"] ['a'] "b.c".data "title"
    (by decide) (by decide)

/-! ### Claim C5 -/

theorem both_neither_eq (a b : Bool) : ((a && b) || (!a && !b)) = (a == b) := by
  cases a <;> cases b <;> rfl

theorem ifPresentOk_eq (cr : Criteria) (k : String) (p : Val → Bool) (d : Val)
    (hd : p d = true) : p (pyGet cr k d) = ifPresentOk cr k p := by
  rw [pyGet, ifPresentOk]
  cases cr.find? (fun kv => kv.1 == k) with
  | none => simpa using hd
  | some kv => rfl

/-- The validator's two-assert `terms` check coincides with the claim's
"non-empty sequence of strings" reading (Python truthiness of a sequence
is non-emptiness; non-sequences fail the `isinstance` assert anyway). -/
theorem termsCheck_eq_spec (v : Val) : termsCheck v = nonEmptySeqOfStr v := by
  cases v <;> simp [termsCheck, nonEmptySeqOfStr, truthy, isSeqOfStr, seqElems]

/-- The validator's four `enrollment` asserts coincide with the claim's
"2-element integer sequence `[lo, hi]` with `lo <= hi`" reading. -/
theorem enrollCheck_eq_spec (v : Val) : enrollCheck v = isIntPairLe v := by
  cases v with
  | vInt n => rfl
  | vStr s => rfl
  | vList xs =>
    rcases xs with _ | ⟨a, _ | ⟨b, _ | ⟨c, rest⟩⟩⟩
    · rfl
    · cases a <;> rfl
    · cases a <;> cases b <;> rfl
    · cases a <;> cases b <;>
        simp [enrollCheck, isIntPairLe, seqElems, List.length]
  | vTuple xs =>
    rcases xs with _ | ⟨a, _ | ⟨b, _ | ⟨c, rest⟩⟩⟩
    · rfl
    · cases a <;> rfl
    · cases a <;> cases b <;> rfl
    · cases a <;> cases b <;>
        simp [enrollCheck, isIntPairLe, seqElems, List.length]

/-- C5 counterexample: a mapping that satisfies every constraint in the
claim's list (keys recognized, `building_code` and `walking_time` both
present, `building_code` a string, …) yet is rejected by
`assert_valid_input`, because the code ALSO asserts that `walking_time`
is an integer — a constraint absent from the claim's list. -/
theorem assert_valid_extra_walking_check_cex :
    claimedConstraints [("building_code", .vStr "RY"), ("walking_time", .vStr "10")] = true ∧
    assert_valid_input [("building_code", .vStr "RY"), ("walking_time", .vStr "10")] = false := by
  decide

/-- C5 (amended): `assert_valid_input` raises if and only if the criteria
mapping violates the claim's constraint list EXTENDED with one more
constraint: `walking_time`, if present, must be an integer.  (Success
returns nothing and has no effects; the validator is modelled as a pure
predicate, `true` meaning no assert fires.) -/
theorem assert_valid_iff_amended (cr : Criteria) :
    assert_valid_input cr = true ↔ amendedConstraints cr = true := by
  have h1 := ifPresentOk_eq cr "building_code" isStr (.vStr "") rfl
  have h2 := ifPresentOk_eq cr "walking_time" isInt (.vInt 0) rfl
  have h3 := ifPresentOk_eq cr "day" isSeqOfStr (.vList []) rfl
  have h4 := ifPresentOk_eq cr "dept" isStr (.vStr "") rfl
  have h5 := ifPresentOk_eq cr "terms" nonEmptySeqOfStr (.vList [.vStr ""]) rfl
  have h6 := ifPresentOk_eq cr "time_start" timeStartCheck (.vInt 0) rfl
  have h7 := ifPresentOk_eq cr "time_end" timeEndCheck (.vInt 0) rfl
  have h8 := ifPresentOk_eq cr "enrollment" isIntPairLe (.vList [.vInt 0, .vInt 0]) rfl
  rw [assert_valid_input, amendedConstraints, claimedConstraints,
      ← h1, ← h2, ← h3, ← h4, ← h5, ← h6, ← h7, ← h8,
      termsCheck_eq_spec, enrollCheck_eq_spec, both_neither_eq]
  simp only [Bool.and_eq_true]
  tauto

/-! ### Claim C7 -/

theorem pyLen_of_isSeqOfStr (v : Val) (h : isSeqOfStr v = true) :
    ∃ n, pyLen v = some n := by
  cases v with
  | vInt n => simp [isSeqOfStr, seqElems] at h
  | vStr s => simp [isSeqOfStr, seqElems] at h
  | vList xs => exact ⟨xs.length, rfl⟩
  | vTuple xs => exact ⟨xs.length, rfl⟩

/-- Validation guarantees `len(args_from_ui.get('terms', []))` is defined
(the value found, if any, is a sequence; the default is the empty list). -/
theorem pyLen_terms_some (cr : Criteria)
    (hterm : termsCheck (pyGet cr "terms" (.vList [.vStr ""])) = true) :
    ∃ n, pyLen (pyGet cr "terms" (.vList [])) = some n := by
  rw [pyGet] at hterm ⊢
  cases hfind : cr.find? (fun kv => kv.1 == "terms") with
  | none => exact ⟨0, rfl⟩
  | some kv =>
    rw [hfind] at hterm
    have hterm2 : termsCheck kv.2 = true := hterm
    rw [termsCheck, Bool.and_eq_true] at hterm2
    exact pyLen_of_isSeqOfStr _ hterm2.2

theorem hasKey_false_ne (cr : Criteria) (k : String) (h : hasKey cr k = false) :
    ∀ kv ∈ cr, kv.1 ≠ k := by
  intro kv hmem heq
  rw [hasKey] at h
  have := List.any_eq_false.mp h kv hmem
  exact this (by simp [heq])

/-- C7 (amended): when the validated criteria name a building with no
`gps` row, the preliminary lookup returns the empty row list and
`find_courses` raises the `IndexError` of `fetchall()[0]` — an opaque
index error, which in Python's exception hierarchy IS a `LookupError`
subclass and is distinct from a validation error — after executing only
the lookup query, never the main query. -/
theorem find_courses_missing_building_index_error (cr : Criteria) (gps : GpsTable)
    (hv : assert_valid_input cr = true)
    (hb : hasKey cr "building_code" = true)
    (hlk : gpsFetch gps (pyGet cr "building_code" (.vStr "")) = []) :
    find_courses cr gps = (.err .indexError, [lookupSQL]) ∧
    FCErr.isLookupSubclass .indexError = true ∧
    FCErr.indexError ≠ FCErr.validationError := by
  refine ⟨?_, rfl, by decide⟩
  have hne : cr.isEmpty = false := by
    cases cr with
    | nil => rw [hasKey] at hb; simp at hb
    | cons a rest => rfl
  obtain ⟨hacc, hbw, hbc, hwt, hday, hdept, hterm, hts, hte, henr⟩ := valid_parts cr hv
  obtain ⟨dayN, hd⟩ := pyLen_of_isSeqOfStr _ hday
  obtain ⟨termsN, ht⟩ := pyLen_terms_some cr hterm
  rw [find_courses, if_neg (by simp [hne]), if_neg (by simp [hv])]
  split
  · next dayN' termsN' hd' ht' =>
    rw [joinTrigger_of_building cr hb, hb, hlk]
    simp
  · next hcon =>
    exact (hcon dayN termsN hd ht).elim

/-- C7 counterexample: the claim asserts a clear lookup error "not an
opaque index error"; the code's `fetchall()[0]` on the empty lookup
result raises precisely the opaque `IndexError` (after the lookup query
only). -/
theorem find_courses_index_error_cex :
    (find_courses [("building_code", .vStr "XX"), ("walking_time", .vInt 10)] []).1.errKind =
      some FCErr.indexError ∧
    (find_courses [("building_code", .vStr "XX"), ("walking_time", .vInt 10)] []).2 =
      [lookupSQL] := by
  decide

/-- C7 witness: the amended theorem evaluated on a concrete mapping and
an empty `gps` table. -/
theorem find_courses_index_error_witness :
    find_courses [("building_code", .vStr "XX"), ("walking_time", .vInt 10)] [] =
      (.err .indexError, [lookupSQL]) ∧
    FCErr.isLookupSubclass .indexError = true ∧
    FCErr.indexError ≠ FCErr.validationError :=
  find_courses_missing_building_index_error
    [("building_code", .vStr "XX"), ("walking_time", .vInt 10)] []
    (by decide) (by decide) rfl

/-! ### Claim C9 -/

/-- The non-loop pieces of any composed query contain no `'x'`. -/
theorem x_not_in_literals :
    'x' ∉ select0.data ∧ 'x' ∉ add_select1.data ∧ 'x' ∉ add_select2.data ∧
    'x' ∉ frm0.data ∧ 'x' ∉ add_joins.data ∧ 'x' ∉ where0.data := by
  decide

/-- C9 (amended): when `terms` is absent from the criteria mapping,
`find_courses` omits the text-search predicate entirely — the composed
query nowhere contains the `catalog_index` subquery.  The single
empty-string default `[""]` exists only inside `assert_valid_input`,
whose check it trivially passes; it never reaches query composition. -/
theorem find_courses_no_terms_no_text_predicate (cr : Criteria) (gps : GpsTable)
    (q : String) (p : List Val) (tr : List String)
    (hterms : hasKey cr "terms" = false)
    (hrun : find_courses cr gps = (.runs q p, tr)) :
    ¬ ("catalog_index".data <:+: q.data) ∧
    pyGet cr "terms" (.vList [.vStr ""]) = .vList [.vStr ""] ∧
    termsCheck (.vList [.vStr ""]) = true := by
  have hne := hasKey_false_ne cr "terms" hterms
  have hdefault : pyGet cr "terms" (.vList [.vStr ""]) = .vList [.vStr ""] := by
    rw [pyGet]
    cases hfind : cr.find? (fun kv => kv.1 == "terms") with
    | none => rfl
    | some kv =>
      have hk := List.find?_some hfind
      exact absurd (eq_of_beq hk) (hne kv (List.mem_of_find?_eq_some hfind))
  refine ⟨?_, hdefault, rfl⟩
  intro hinf
  have hx : 'x' ∈ q.data := List.IsInfix.subset hinf (by decide)
  obtain ⟨hlit1, hlit2, hlit3, hlit4, hlit5, hlit6⟩ := x_not_in_literals
  obtain ⟨-, -, dayN, termsN, -, -, hshape⟩ := find_courses_runs_inv cr gps q p tr hrun
  have hwx := x_not_in_wtext dayN termsN cr hne
  rcases hshape with ⟨-, hq, -, -⟩ | ⟨-, -, hq, -, -⟩ | ⟨-, -, ll, -, hq, -, -⟩ <;>
    rw [hq] at hx <;>
    simp only [String.data_append, List.mem_append] at hx <;>
    tauto

/-- C9 counterexample: for criteria `{"dept": "CMSC"}` (validated, no
`terms` key) the claim requires a text-search predicate matching the
empty-string term; the composed query contains no `catalog_index`
predicate at all. -/
theorem find_courses_no_terms_cex :
    assert_valid_input [("dept", .vStr "CMSC")] = true ∧
    ¬ ("catalog_index".data <:+:
        ((find_courses [("dept", .vStr "CMSC")] []).1.queryText).data) := by
  decide

/-- C9 witness: the amended theorem evaluated on a concrete mapping
without a `terms` key. -/
theorem find_courses_no_terms_witness :
    ¬ ("catalog_index".data <:+:
        ((find_courses [("time_start", .vInt 930)] []).1.queryText).data) ∧
    pyGet [("time_start", .vInt 930)] "terms" (.vList [.vStr ""]) = .vList [.vStr ""] ∧
    termsCheck (.vList [.vStr ""]) = true :=
  find_courses_no_terms_no_text_predicate [("time_start", .vInt 930)] []
    ((find_courses [("time_start", .vInt 930)] []).1.queryText)
    ((find_courses [("time_start", .vInt 930)] []).1.paramList)
    ((find_courses [("time_start", .vInt 930)] []).2)
    (by decide) rfl

/-! ### Claim C10 -/

/-- C10 (amended): `assert_valid_input` accepts `day = []`; `find_courses`
then composes a query whose day predicate is `day IN ()` with zero
placeholders, contributing zero parameters — but under the SQLite
semantics of the sqlite3 store the code uses, the empty IN list is
accepted and simply matches nothing: execution succeeds and the day
filter passes no rows (rather than all days, and rather than failing). -/
theorem find_courses_day_empty_in_list (gps : GpsTable) (days : List String) :
    assert_valid_input [("day", Val.vList [])] = true ∧
    find_courses [("day", Val.vList [])] gps =
      (.runs ((select0 ++ add_select1) ++ (frm0 ++ add_joins) ++
              (where0 ++ day_fmt 0)) [],
       [(select0 ++ add_select1) ++ (frm0 ++ add_joins) ++
        (where0 ++ day_fmt 0)]) ∧
    day_fmt 0 = " AND meeting_patterns.day IN ()" ∧
    countQ (day_fmt 0) = 0 ∧
    sqliteRunDayQuery [] days = Except.ok [] := by
  refine ⟨by decide, rfl, rfl, rfl, ?_⟩
  simp [sqliteRunDayQuery, sqliteDayIn]

/-- C10 counterexample: the claim says the composed `day IN ()` query
fails with a store error; executing its day predicate (with its actual
zero bound parameters) over a store holding an `MWF` row succeeds and
returns no rows. -/
theorem find_courses_day_empty_cex :
    sqliteRunDayQuery ((find_courses [("day", Val.vList [])] []).1.paramList) ["MWF"] =
      Except.ok [] ∧
    countQ ((find_courses [("day", Val.vList [])] []).1.queryText) = 0 :=
  ⟨rfl, by decide⟩

/-! ### Claim C2 -/

theorem bool_ne_true_of_eq_false {b : Bool} (h : b = false) : ¬ b = true := by
  rw [h]; simp

/-- C2 (amended): for validated criteria the three-table join block —
which unconditionally includes the Building (`gps`) join — is appended
if and only if some key from `{enrollment, time_start, time_end, day,
walking_time}` is present (`'J'` occurs in a composed query exactly in
the `JOIN` lines); the derived geodistance column (`'k'` occurs exactly
in `walking_time` text) is selected if and only if `building_code` is
present.  In particular, section-scoped criteria WITHOUT `building_code`
still receive the `gps` join. -/
theorem find_courses_join_set (cr : Criteria) (gps : GpsTable)
    (q : String) (p : List Val) (tr : List String)
    (hv : assert_valid_input cr = true)
    (hrun : find_courses cr gps = (.runs q p, tr)) :
    ((cr.any fun kv => sectionKeys.contains kv.1) = true ↔ 'J' ∈ q.data) ∧
    (hasKey cr "building_code" = true ↔ 'k' ∈ q.data) ∧
    (hasKey cr "building_code" = true → "AS walking_time".data <:+: q.data) := by
  obtain ⟨hne, -, dayN, termsN, hd, ht, hshape⟩ :=
    find_courses_runs_inv cr gps q p tr hrun
  have hiff := joinTrigger_iff_sectionKeys cr hv
  have hbw := (valid_parts cr hv).2.1
  rcases hshape with ⟨htrig, hq, -, -⟩ | ⟨htrig, hbc, hq, -, -⟩ |
    ⟨htrig, hbc, ll, -, hq, -, -⟩
  · -- no joins at all
    have hbc : hasKey cr "building_code" = false := by
      cases hcase : hasKey cr "building_code" with
      | false => rfl
      | true => rw [joinTrigger_of_building cr hcase] at htrig; cases htrig
    have hkw := k_not_in_wtext dayN termsN cr
      (hasKey_false_ne cr "walking_time" (hbw ▸ hbc))
    have hJw := J_not_in_wtext dayN termsN cr
    have hnosec : (cr.any fun kv => sectionKeys.contains kv.1) = false := by
      cases hcase : (cr.any fun kv => sectionKeys.contains kv.1) with
      | false => rfl
      | true => rw [hiff.mpr hcase] at htrig; cases htrig
    have hJnot : 'J' ∉ q.data := by
      rw [hq]; intro h
      simp only [String.data_append, List.mem_append] at h
      rcases h with (h | h) | (h | h)
      · revert h; decide
      · revert h; decide
      · revert h; decide
      · exact hJw h
    have hknot : 'k' ∉ q.data := by
      rw [hq]; intro h
      simp only [String.data_append, List.mem_append] at h
      rcases h with (h | h) | (h | h)
      · revert h; decide
      · revert h; decide
      · revert h; decide
      · exact hkw h
    exact ⟨⟨fun h => absurd h (bool_ne_true_of_eq_false hnosec), fun h => absurd h hJnot⟩,
           ⟨fun h => absurd h (bool_ne_true_of_eq_false hbc), fun h => absurd h hknot⟩,
           fun h => absurd h (bool_ne_true_of_eq_false hbc)⟩
  · -- joins without the geodistance column
    have hkw := k_not_in_wtext dayN termsN cr
      (hasKey_false_ne cr "walking_time" (hbw ▸ hbc))
    have hJmem : 'J' ∈ q.data := by
      rw [hq]
      simp only [String.data_append, List.mem_append]
      have : 'J' ∈ add_joins.data := by decide
      tauto
    have hknot : 'k' ∉ q.data := by
      rw [hq]; intro h
      simp only [String.data_append, List.mem_append] at h
      rcases h with ((h | h) | (h | h)) | (h | h)
      · revert h; decide
      · revert h; decide
      · revert h; decide
      · revert h; decide
      · revert h; decide
      · exact hkw h
    exact ⟨⟨fun _ => hJmem, fun _ => hiff.mp htrig⟩,
           ⟨fun h => absurd h (bool_ne_true_of_eq_false hbc), fun h => absurd h hknot⟩,
           fun h => absurd h (bool_ne_true_of_eq_false hbc)⟩
  · -- joins with the geodistance column
    have hJmem : 'J' ∈ q.data := by
      rw [hq]
      simp only [String.data_append, List.mem_append]
      have : 'J' ∈ add_joins.data := by decide
      tauto
    have hkmem : 'k' ∈ q.data := by
      rw [hq]
      simp only [String.data_append, List.mem_append]
      have : 'k' ∈ add_select2.data := by decide
      tauto
    have hinfix : "AS walking_time".data <:+: q.data := by
      have hin : "AS walking_time".data <:+: add_select2.data := by decide
      refine hin.trans ?_
      rw [hq]
      simp only [String.data_append]
      refine ⟨select0.data ++ add_select1.data,
        (frm0.data ++ add_joins.data) ++ (where0.data ++ (wtext dayN termsN cr).data), ?_⟩
      simp [List.append_assoc]
    exact ⟨⟨fun _ => hJmem, fun _ => hiff.mp htrig⟩,
           ⟨fun _ => hkmem, fun _ => hbc⟩, fun _ => hinfix⟩

/-- C2 counterexample: criteria with only the section-scoped key
`enrollment` — no `building_code` — still compose a query containing the
Building join `JOIN gps …`, contradicting "the Building join is included
if and only if `building_code` is present". -/
theorem find_courses_gps_join_without_building_cex :
    assert_valid_input [("enrollment", .vList [.vInt 0, .vInt 100])] = true ∧
    hasKey [("enrollment", .vList [.vInt 0, .vInt 100])] "building_code" = false ∧
    "JOIN gps".data <:+:
      ((find_courses [("enrollment", .vList [.vInt 0, .vInt 100])] []).1.queryText).data := by
  decide

/-- C2 witness: the amended theorem evaluated on concrete geodistance
criteria over a one-row `gps` table. -/
theorem find_courses_join_set_witness :
    ((([("building_code", Val.vStr "RY"), ("walking_time", Val.vInt 10)] : Criteria).any
        fun kv => sectionKeys.contains kv.1) = true ↔
      'J' ∈ ((find_courses [("building_code", .vStr "RY"), ("walking_time", .vInt 10)]
        [("RY", .vInt 0, .vInt 0)]).1.queryText).data) ∧
    (hasKey [("building_code", .vStr "RY"), ("walking_time", .vInt 10)] "building_code" = true ↔
      'k' ∈ ((find_courses [("building_code", .vStr "RY"), ("walking_time", .vInt 10)]
        [("RY", .vInt 0, .vInt 0)]).1.queryText).data) ∧
    (hasKey [("building_code", .vStr "RY"), ("walking_time", .vInt 10)] "building_code" = true →
      "AS walking_time".data <:+:
        ((find_courses [("building_code", .vStr "RY"), ("walking_time", .vInt 10)]
          [("RY", .vInt 0, .vInt 0)]).1.queryText).data) :=
  find_courses_join_set
    [("building_code", .vStr "RY"), ("walking_time", .vInt 10)]
    [("RY", .vInt 0, .vInt 0)]
    ((find_courses [("building_code", .vStr "RY"), ("walking_time", .vInt 10)]
      [("RY", .vInt 0, .vInt 0)]).1.queryText)
    ((find_courses [("building_code", .vStr "RY"), ("walking_time", .vInt 10)]
      [("RY", .vInt 0, .vInt 0)]).1.paramList)
    ((find_courses [("building_code", .vStr "RY"), ("walking_time", .vInt 10)]
      [("RY", .vInt 0, .vInt 0)]).2)
    (by decide) rfl

/-! ### Claim C3 -/

/-- C3: the composed `terms` predicate is conjunctive.  The loop binds
one parameter per term plus a trailing count parameter equal to the
number of (distinct, per the claim) terms, the fragment carries matching
placeholders, and — for a `catalog_index` whose `(word, course_id)` rows
are pairwise distinct, per the data model — a course satisfying the
subquery `WHERE word IN (…) GROUP BY course_id HAVING count(*) = k` has
an index entry for EVERY one of the `k` distinct terms; a course matching
only `k−1` of them is excluded. -/
theorem terms_conjunctive_semantics (idx : List (String × Nat)) (ts : List String)
    (cid : Nat) (hidx : idx.Nodup) (hts : ts.Nodup) :
    (termsPass idx ts ts.length cid = true → ∀ t ∈ ts, (t, cid) ∈ idx) ∧
    fragParams "terms" (.vList (ts.map Val.vStr)) =
      ts.map Val.vStr ++ [.vInt (Int.ofNat ts.length)] ∧
    countQ (where_terms_fmt ts.length) = ts.length + 1 := by
  refine ⟨?_, by simp [fragParams], countQ_terms_fmt ts.length⟩
  intro hpass t htmem
  rw [termsPass, Bool.and_eq_true] at hpass
  have hcnt : matchCount idx ts cid = ts.length := eq_of_beq hpass.2
  rw [matchCount] at hcnt
  set f := idx.filter (fun r => decide (r.1 ∈ ts) && r.2 == cid) with hf
  have hfnd : f.Nodup := List.Nodup.filter _ hidx
  have hsnd : ∀ r ∈ f, r.2 = cid := by
    intro r hr
    have hmf := (List.mem_filter.mp hr).2
    rw [Bool.and_eq_true] at hmf
    exact eq_of_beq hmf.2
  have hfst : ∀ r ∈ f, r.1 ∈ ts := by
    intro r hr
    have hmf := (List.mem_filter.mp hr).2
    rw [Bool.and_eq_true] at hmf
    exact of_decide_eq_true hmf.1
  have hwords : (f.map Prod.fst).Nodup := by
    refine List.Nodup.map_on ?_ hfnd
    intro x hx y hy hxy
    exact Prod.ext hxy ((hsnd x hx).trans (hsnd y hy).symm)
  have hsub : (f.map Prod.fst).toFinset ⊆ ts.toFinset := by
    intro w hw
    rw [List.mem_toFinset] at hw ⊢
    obtain ⟨r, hr, hrw⟩ := List.mem_map.mp hw
    exact hrw ▸ hfst r hr
  have hcard1 : (f.map Prod.fst).toFinset.card = ts.length := by
    rw [List.toFinset_card_of_nodup hwords, List.length_map, hcnt]
  have hcard2 : ts.toFinset.card = ts.length := List.toFinset_card_of_nodup hts
  have heqset : (f.map Prod.fst).toFinset = ts.toFinset :=
    Finset.eq_of_subset_of_card_le hsub (by rw [hcard1, hcard2])
  have htw : t ∈ (f.map Prod.fst).toFinset := by
    rw [heqset, List.mem_toFinset]
    exact htmem
  rw [List.mem_toFinset] at htw
  obtain ⟨r, hr, hrw⟩ := List.mem_map.mp htw
  have hreq : r = (t, cid) := Prod.ext (by rw [hrw]) (by rw [hsnd r hr])
  exact hreq ▸ (List.mem_filter.mp hr).1

/-- C3 witness: the conjunctive-match theorem evaluated on a concrete
index in which course 1 matches both terms (and is therefore required to
hold an entry for each) while course 2 matches only one of the two. -/
theorem terms_conjunctive_semantics_witness :
    (termsPass [("quantum", 1), ("plato", 1), ("quantum", 2)] ["quantum", "plato"] 2 1 = true →
      ∀ t ∈ (["quantum", "plato"] : List String),
        (t, 1) ∈ [("quantum", 1), ("plato", 1), ("quantum", 2)]) ∧
    fragParams "terms" (.vList (["quantum", "plato"].map Val.vStr)) =
      ["quantum", "plato"].map Val.vStr ++ [.vInt (Int.ofNat 2)] ∧
    countQ (where_terms_fmt 2) = 2 + 1 :=
  terms_conjunctive_semantics [("quantum", 1), ("plato", 1), ("quantum", 2)]
    ["quantum", "plato"] 1 (by decide) (by decide)

/-! ### Claim C1 -/

/-- C1 (amended): for a validated criteria mapping whose sequence values
are Python lists (tuples, though validated, fall into the scalar branch
of the loop and misalign), the composed query and bound parameters are
aligned: the total number of `?` placeholders equals the number of bound
parameters; every looped key's fragment carries exactly as many
placeholders as the parameters appended for it (one per list element for
`day` and `terms`, plus the trailing match-count for `terms`), in the
order the fragments are concatenated; and when the geodistance column is
selected, the looked-up building lon/lat are the first two parameters,
bound ahead of all WHERE parameters. -/
theorem find_courses_param_alignment (cr : Criteria) (gps : GpsTable)
    (q : String) (p : List Val) (tr : List String)
    (hnd : (cr.map Prod.fst).Nodup)
    (hnt : noTupleVals cr = true)
    (hrun : find_courses cr gps = (.runs q p, tr)) :
    countQ q = p.length ∧
    (∀ kv ∈ cr, kv.1 ≠ "building_code" →
      ∃ frag, where_dict (dayLen cr) (termsLen cr) kv.1 = some frag ∧
        countQ frag = (fragParams kv.1 kv.2).length) ∧
    (hasKey cr "building_code" = true →
      ∃ ll, (gpsFetch gps (pyGet cr "building_code" (.vStr ""))).head? = some ll ∧
        p = ll.1 :: ll.2 :: wargs cr) ∧
    (hasKey cr "building_code" = false → p = wargs cr) := by
  obtain ⟨hne, hv, dayN, termsN, hd, ht, hshape⟩ :=
    find_courses_runs_inv cr gps q p tr hrun
  have hdl : dayLen cr = dayN := by rw [dayLen, hd]; rfl
  have htl : termsLen cr = termsN := by rw [termsLen, ht]; rfl
  have H : ∀ kv ∈ cr, kv.1 ≠ "building_code" →
      ∃ frag, where_dict dayN termsN kv.1 = some frag ∧
        countQ frag = (fragParams kv.1 kv.2).length := by
    intro kv hm hnekv
    have hfc := frag_count_of_valid cr hv hnd hnt kv hm hnekv
    rwa [hdl, htl] at hfc
  have Hdl : ∀ kv ∈ cr, kv.1 ≠ "building_code" →
      ∃ frag, where_dict (dayLen cr) (termsLen cr) kv.1 = some frag ∧
        countQ frag = (fragParams kv.1 kv.2).length := by
    intro kv hm hnekv
    rw [hdl, htl]
    exact H kv hm hnekv
  have hcount := wtext_count_eq_wargs_length dayN termsN cr H
  have c0 : countQ select0 = 0 := rfl
  have c1 : countQ add_select1 = 0 := rfl
  have c2 : countQ add_select2 = 2 := rfl
  have cf : countQ frm0 = 0 := rfl
  have cj : countQ add_joins = 0 := rfl
  have cw : countQ where0 = 0 := rfl
  rcases hshape with ⟨htrig, hq, hp, -⟩ | ⟨htrig, hbc, hq, hp, -⟩ |
    ⟨htrig, hbc, ll, hll, hq, hp, -⟩
  · have hbc : hasKey cr "building_code" = false := by
      cases hcase : hasKey cr "building_code" with
      | false => rfl
      | true => rw [joinTrigger_of_building cr hcase] at htrig; cases htrig
    refine ⟨?_, Hdl, fun hb => absurd hb (bool_ne_true_of_eq_false hbc), fun _ => hp⟩
    rw [hq, hp, countQ_append, countQ_append, countQ_append,
        c0, cf, cw, hcount]
    omega
  · refine ⟨?_, Hdl, fun hb => absurd hb (bool_ne_true_of_eq_false hbc), fun _ => hp⟩
    rw [hq, hp, countQ_append, countQ_append, countQ_append, countQ_append,
        countQ_append, c0, c1, cf, cj, cw, hcount]
    omega
  · refine ⟨?_, Hdl, fun _ => ⟨ll, hll, hp⟩,
      fun hb => absurd hbc (bool_ne_true_of_eq_false hb)⟩
    rw [hq, hp, countQ_append, countQ_append, countQ_append, countQ_append,
        countQ_append, countQ_append, c0, c1, c2, cf, cj, cw, hcount,
        List.length_append]
    simp only [List.length_cons, List.length_nil]
    omega

/-- C1 counterexample: a criteria mapping that `assert_valid_input`
accepts (`day` bound to a TUPLE of two strings — the validator allows
`(list, tuple)`) for which the composed day fragment carries two `?`
placeholders while the loop's `type(v) == list` test appends the tuple as
a single parameter: 2 placeholders, 1 bound parameter. -/
theorem find_courses_param_misalignment_cex :
    assert_valid_input [("day", .vTuple [.vStr "MWF", .vStr "TR"])] = true ∧
    countQ ((find_courses [("day", .vTuple [.vStr "MWF", .vStr "TR"])] []).1.queryText) = 2 ∧
    ((find_courses [("day", .vTuple [.vStr "MWF", .vStr "TR"])] []).1.paramList).length = 1 := by
  decide

/-- C1 witness: the specification's own example
`day = ["MWF", "TR"]`, `terms = ["quantum", "plato"]` — 2 + (2 + 1) = 5
placeholders and 5 parameters, aligned. -/
theorem find_courses_param_alignment_witness :
    countQ ((find_courses [("day", .vList [.vStr "MWF", .vStr "TR"]),
        ("terms", .vList [.vStr "quantum", .vStr "plato"])] []).1.queryText) =
      ((find_courses [("day", .vList [.vStr "MWF", .vStr "TR"]),
        ("terms", .vList [.vStr "quantum", .vStr "plato"])] []).1.paramList).length ∧
    ((find_courses [("day", .vList [.vStr "MWF", .vStr "TR"]),
        ("terms", .vList [.vStr "quantum", .vStr "plato"])] []).1.paramList).length = 5 :=
  ⟨(find_courses_param_alignment
      [("day", .vList [.vStr "MWF", .vStr "TR"]),
       ("terms", .vList [.vStr "quantum", .vStr "plato"])] []
      ((find_courses [("day", .vList [.vStr "MWF", .vStr "TR"]),
        ("terms", .vList [.vStr "quantum", .vStr "plato"])] []).1.queryText)
      ((find_courses [("day", .vList [.vStr "MWF", .vStr "TR"]),
        ("terms", .vList [.vStr "quantum", .vStr "plato"])] []).1.paramList)
      ((find_courses [("day", .vList [.vStr "MWF", .vStr "TR"]),
        ("terms", .vList [.vStr "quantum", .vStr "plato"])] []).2)
      (by decide) rfl rfl).1,
   by decide⟩
